import Mathlib

/-!
Verification of the raffle-fox-admin prize screens.

This file shallowly embeds the prize-creation pipeline
(`src/components/prizes/CreatePrizeModal.tsx`, `src/lib/prize-service.ts`)
and the prize list screen (the `Prizes` page).  JavaScript numbers are
IEEE-754 binary64 values; here they are modelled exactly as non-negative
rationals given by unreduced numerator/denominator pairs of naturals,
with an explicit rounding function to the 53-bit significand grid
(round to nearest, ties to even).  The model covers the normal,
non-overflowing range, which contains every value these claims touch.
Stateful Firebase calls are modelled by explicit state passing over an
environment that prescribes the outcome of each network call.
-/

namespace RaffleFox

/-! ### Exact model of JavaScript number arithmetic

A non-negative value is a pair `(n, d)` standing for `n / d` (`d ≠ 0` at
every use site).  `rtdPair` rounds such a value to the nearest IEEE-754
binary64 value (ties to even), returned again as an exact pair.
-/

/-- Round-half-even of `a / b` (for `b ≠ 0`): the integer nearest to
`a / b`, ties going to the even integer.  This is the rounding used when
a real value is converted to a binary64 float. -/
def rhePair (a b : ℕ) : ℕ :=
  let q := a / b
  let r := a % b
  if 2 * r < b then q
  else if b < 2 * r then q + 1
  else if q % 2 = 0 then q else q + 1

/-- Round-half-up of `n / d` (for `d ≠ 0`): `⌊n/d + 1/2⌋`.  This is
`Math.round` on a non-negative value (ties toward `+∞`). -/
def roundHalfUpPair (n d : ℕ) : ℕ := (2 * n + d) / (2 * d)

/-- Fuel-driven loop: given `d ≤ n`, doubles `d` until `n / d < 2`,
returning the binary exponent `e` with `2^e ≤ n/d < 2^(e+1)`. -/
def expDown (fuel : ℕ) (n d : ℕ) (e : ℤ) : ℤ :=
  match fuel with
  | 0 => e
  | f + 1 => if n < 2 * d then e else expDown f n (2 * d) (e + 1)

/-- Fuel-driven loop: given `n < d`, doubles `n` until `d ≤ n`,
returning the binary exponent `e` with `2^e ≤ n/d < 2^(e+1)`. -/
def expUp (fuel : ℕ) (n d : ℕ) (e : ℤ) : ℤ :=
  match fuel with
  | 0 => e
  | f + 1 => if d ≤ n then e else expUp f (2 * n) d (e - 1)

/-- Binary exponent of the positive value `n / d`. -/
def findExpPair (n d : ℕ) : ℤ :=
  if d ≤ n then expDown (n + 1) n d 0 else expUp (d + 1) n d 0

/-- Round the non-negative value `n / d` to the nearest binary64 value
(53-bit significand, ties to even), returned as an exact pair. -/
def rtdPair (n d : ℕ) : ℕ × ℕ :=
  if n = 0 then (0, 1)
  else
    let e := findExpPair n d
    let s := 52 - e
    if 0 ≤ s then (rhePair (n * 2 ^ s.toNat) d, 2 ^ s.toNat)
    else (rhePair n (d * 2 ^ (-s).toNat) * 2 ^ (-s).toNat, 1)

/-- Float multiplication of two non-negative binary64 values: the exact
product, rounded back to the float grid. -/
def jsMulPair (a b : ℕ × ℕ) : ℕ × ℕ := rtdPair (a.1 * b.1) (a.2 * b.2)

/-- Float division of two non-negative binary64 values. -/
def jsDivPair (a b : ℕ × ℕ) : ℕ × ℕ := rtdPair (a.1 * b.2) (a.2 * b.1)

/-- `Math.round` of a non-negative binary64 value: nearest integer,
ties toward `+∞`. -/
def jsRoundPair (p : ℕ × ℕ) : ℕ := roundHalfUpPair p.1 p.2

/-- The rational value of a pair. -/
def toQ (p : ℕ × ℕ) : ℚ := (p.1 : ℚ) / (p.2 : ℚ)

/-- Decide whether an optional pair denotes exactly the rational `c / d`. -/
def pairIsRat (o : Option (ℕ × ℕ)) (c d : ℕ) : Bool :=
  match o with
  | none => false
  | some p => p.1 * d == c * p.2

/-- Cross-multiplication equality of two pairs. -/
def pairEq (p q : ℕ × ℕ) : Bool := p.1 * q.2 == q.1 * p.2

/-! ### Decimal strings

`parseDecimalPair` parses a canonical non-negative decimal numeral
(`digits`, `digits.digits`, `.digits` or `digits.`) to its exact value;
on such strings JavaScript's `parseFloat` returns the nearest binary64
value of that number, and on strings with no leading digits (such as
`"abc"`) it returns `NaN`, modelled by `none`. -/

/-- Value of a list of decimal digit characters. -/
def decVal (cs : List Char) : ℕ :=
  cs.foldl (fun n c => 10 * n + (c.toNat - 48)) 0

/-- Parse a canonical non-negative decimal string to its exact value
`(numerator, power-of-ten denominator)`; `none` models `NaN`. -/
def parseDecimalPair (s : String) : Option (ℕ × ℕ) :=
  match s.data.span Char.isDigit with
  | (ip, []) => if ip.isEmpty then none else some (decVal ip, 1)
  | (ip, '.' :: fp) =>
    if fp.all Char.isDigit && !(ip.isEmpty && fp.isEmpty) then
      some (decVal ip * 10 ^ fp.length + decVal fp, 10 ^ fp.length)
    else none
  | _ => none

/-- `true` iff the string is a canonical non-negative decimal numeral
(the spec's notion of a string-encoded non-negative decimal). -/
def parsesAsNonNegDecimal (s : String) : Bool := (parseDecimalPair s).isSome

/-! ### The break-even computation

`CreatePrizeModal.tsx` computes, both for the live preview (lines
171-174) and for the persisted document (line 263),
`Math.round(parseFloat(retailValue) * 0.25 * 100) / 100`
in binary64 arithmetic.  `0.25` and `100` are exactly representable. -/

/-- `Math.round(parseFloat(s) * 0.25 * 100) / 100` over exact pairs;
`none` models the `NaN` produced by an unparseable string. -/
def jsBreakEvenPair (s : String) : Option (ℕ × ℕ) :=
  (parseDecimalPair s).map fun p =>
    let x := rtdPair p.1 p.2
    let a := jsMulPair x (1, 4)
    let b := jsMulPair a (100, 1)
    rtdPair (roundHalfUpPair b.1 b.2) 100

/-- The persisted `breakEvenValue`, as a rational (`none` = `NaN`). -/
def jsBreakEven (s : String) : Option ℚ := (jsBreakEvenPair s).map toQ

/-- The numeric value behind the form's break-even preview: the modal
shows `"0.00"` for an empty retail value and otherwise the same
`Math.round(parseFloat(v) * 0.25 * 100) / 100` expression that is
persisted (its `toFixed(2)` string rendering is presentation only). -/
def breakEvenPreview (s : String) : Option ℚ :=
  if s = "" then some 0 else jsBreakEven s

/-! ### `prize-service.ts`

`createPrizeDocument(data, imageFiles, sponsorId)` uploads the staged
image files sequentially, assembles the prize document, inserts it into
the `prize_database` collection, and finally tries to append the new
document id to the sponsor's `prizesCreation` array, swallowing any
error of that last step.

Files are identified by their names; the outcome of each network call is
prescribed by an `Env`; the observable backend state is an `FsState`
threaded explicitly.  A failed overall run (a thrown exception) is the
`none` result. -/

/-- The `CreatePrizeData` interface of `prize-service.ts`.
`breakEvenValue` is a JavaScript number; `none` models `NaN`. -/
structure CreatePrizeData where
  prizeName : String
  quantityAvailable : String
  fullDescription : String
  keywords : List String
  tags : String
  sponsorId : String
  prizeCategory : String
  stockDate : String
  fulfillmentMethod : String
  deliveryTimeline : String
  claimWindow : String
  pickupRequired : Bool
  eligibleRegions : String
  retailValueUSD : String
  breakEvenValue : Option ℚ
  ageRestriction : String
  idRequired : Bool
  useStandardTerms : Bool
  termsConditionsUrl : String
  customTermsType : String
  customTermsUrl : String
  additionalInfo : String
  status : String
deriving DecidableEq, Repr

/-- The document written to the `prize_database` collection: the
`CreatePrizeData` fields plus the derived `thumbnail`, `images` and the
server-assigned `createdAt` timestamp. -/
structure PrizeDoc where
  prizeName : String
  quantityAvailable : String
  fullDescription : String
  keywords : List String
  tags : String
  thumbnail : String
  images : List String
  sponsorId : String
  prizeCategory : String
  stockDate : String
  fulfillmentMethod : String
  deliveryTimeline : String
  claimWindow : String
  pickupRequired : Bool
  eligibleRegions : String
  retailValueUSD : String
  breakEvenValue : Option ℚ
  ageRestriction : String
  idRequired : Bool
  useStandardTerms : Bool
  termsConditionsUrl : String
  customTermsType : String
  customTermsUrl : String
  additionalInfo : String
  status : String
  createdAt : ℕ
deriving DecidableEq, Repr

/-- Step 2 of `createPrizeDocument`: build the document from the input
data and the uploaded image URLs.  `thumbnail` is `imageUrls[0] || ""`:
the first URL, or `""` when there is none (a first URL that is itself
`""` also yields `""`, which `List.headD` matches). -/
def buildPrizeDoc (data : CreatePrizeData) (now : ℕ) (imageUrls : List String) :
    PrizeDoc where
  prizeName := data.prizeName
  quantityAvailable := data.quantityAvailable
  fullDescription := data.fullDescription
  keywords := data.keywords
  tags := data.tags
  thumbnail := imageUrls.headD ""
  images := imageUrls
  sponsorId := data.sponsorId
  prizeCategory := data.prizeCategory
  stockDate := data.stockDate
  fulfillmentMethod := data.fulfillmentMethod
  deliveryTimeline := data.deliveryTimeline
  claimWindow := data.claimWindow
  pickupRequired := data.pickupRequired
  eligibleRegions := data.eligibleRegions
  retailValueUSD := data.retailValueUSD
  breakEvenValue := data.breakEvenValue
  ageRestriction := data.ageRestriction
  idRequired := data.idRequired
  useStandardTerms := data.useStandardTerms
  termsConditionsUrl := data.termsConditionsUrl
  customTermsType := data.customTermsType
  customTermsUrl := data.customTermsUrl
  additionalInfo := data.additionalInfo
  status := data.status
  createdAt := now

/-- Observable Firebase state: the prize collection (insertion order,
with document ids), each sponsor's `prizesCreation` array, the blob
store contents, and how many sponsor-update calls were issued. -/
structure FsState where
  prizes : List (String × PrizeDoc)
  sponsors : List (String × List String)
  blobs : List String
  sponsorUpdateAttempts : ℕ
deriving DecidableEq, Repr

/-- Prescribed outcomes of the network calls of one submission:
`uploadOutcome i` is the public URL produced for the `i`-th staged file
(`none` = that upload throws); `insertOutcome` is the generated document
id (`none` = the insert throws); `sponsorUpdateOk` tells whether the
sponsor `updateDoc` call succeeds; `now` is the server timestamp. -/
structure Env where
  uploadOutcome : ℕ → Option String
  insertOutcome : Option String
  sponsorUpdateOk : Bool
  now : ℕ

/-- Step 1 of `createPrizeDocument`: sequential uploads, in array
order.  Each successful upload stores a blob and yields its URL; the
first failure aborts the loop (and with it the whole submission). -/
def uploadImages (env : Env) : List String → ℕ → FsState → FsState × Option (List String)
  | [], _, st => (st, some [])
  | _file :: rest, i, st =>
    match env.uploadOutcome i with
    | none => (st, none)
    | some url =>
      let st1 := { st with blobs := st.blobs ++ [url] }
      match uploadImages env rest (i + 1) st1 with
      | (st2, none) => (st2, none)
      | (st2, some urls) => (st2, some (url :: urls))

/-- Firestore `arrayUnion`: append an element unless already present. -/
def arrayUnionAppend (xs : List String) (x : String) : List String :=
  if x ∈ xs then xs else xs ++ [x]

/-- The sponsor update: append the prize id to the addressed sponsor's
`prizesCreation` array with `arrayUnion` semantics. -/
def updateSponsor (sponsors : List (String × List String)) (sid pid : String) :
    List (String × List String) :=
  sponsors.map fun p => if p.1 = sid then (p.1, arrayUnionAppend p.2 pid) else p

/-- `createPrizeDocument` of `prize-service.ts`: upload the images, build
and insert the prize document, then best-effort append the new id to the
sponsor's `prizesCreation` (its failure is caught and only logged).
Returns the new document id, or `none` when the function throws. -/
def createPrizeDocument (env : Env) (data : CreatePrizeData)
    (imageFiles : List String) (sponsorId : String) (st : FsState) :
    FsState × Option String :=
  match uploadImages env imageFiles 0 st with
  | (st1, none) => (st1, none)
  | (st1, some imageUrls) =>
    let prizeDoc := buildPrizeDoc data env.now imageUrls
    match env.insertOutcome with
    | none => (st1, none)
    | some docId =>
      let st2 := { st1 with prizes := st1.prizes ++ [(docId, prizeDoc)] }
      let st3 := { st2 with sponsorUpdateAttempts := st2.sponsorUpdateAttempts + 1 }
      let st4 :=
        if env.sponsorUpdateOk then
          { st3 with sponsors := updateSponsor st3.sponsors sponsorId docId }
        else st3
      (st4, some docId)

/-! ### `CreatePrizeModal.tsx`

The form state, the zod schema, the submit handler and the auxiliary
interaction handlers (image staging, region toggle, ad-hoc category
addition).  Optional string fields are modelled with `""` for the
absent value, matching the form's default values. -/

/-- The modal's form values (`z.infer<typeof formSchema>`). -/
structure FormValues where
  prizeName : String
  quantityAvailable : String
  detail1 : String
  detail2 : String
  detail3 : String
  fullDescription : String
  tags : String
  sponsorId : String
  prizeCategory : String
  stockDate : String
  fulfillmentMethod : String
  deliveryTimeline : String
  claimWindow : String
  pickupRequired : Bool
  eligibleRegions : String
  retailValueUSD : String
  ageRestriction : String
  idRequired : Bool
  useStandardTerms : Bool
  termsConditionsUrl : String
  customTermsType : String
  customTermsUrl : String
  additionalInfo : String
  acceptedTerms : Bool
deriving DecidableEq, Repr

/-- The zod `formSchema` (lines 41-66): per required string field a
`min(1)` check, plus `max(200)` on the name and `max(2000)` on the
description.  Lengths are counted like zod's (string length).  Note that
`retailValueUSD` carries only the `min(1)` constraint. -/
def formSchemaValid (v : FormValues) : Bool :=
  (1 ≤ v.prizeName.length && v.prizeName.length ≤ 200) &&
  1 ≤ v.quantityAvailable.length &&
  (1 ≤ v.fullDescription.length && v.fullDescription.length ≤ 2000) &&
  1 ≤ v.tags.length &&
  1 ≤ v.sponsorId.length &&
  1 ≤ v.prizeCategory.length &&
  1 ≤ v.stockDate.length &&
  1 ≤ v.fulfillmentMethod.length &&
  1 ≤ v.deliveryTimeline.length &&
  1 ≤ v.claimWindow.length &&
  1 ≤ v.eligibleRegions.length &&
  1 ≤ v.retailValueUSD.length &&
  1 ≤ v.ageRestriction.length

/-- The `CreatePrizeData` argument assembled inside `onSubmit` (lines
245-272): keywords are the three detail slots with blanks dropped,
`breakEvenValue` is recomputed from the current retail value, the
optional terms fields default to `""`, and `status` is fixed to
`"Active"`. -/
def assembleData (v : FormValues) : CreatePrizeData where
  prizeName := v.prizeName
  quantityAvailable := v.quantityAvailable
  fullDescription := v.fullDescription
  keywords := [v.detail1, v.detail2, v.detail3].filter (fun s => s ≠ "")
  tags := v.tags
  sponsorId := v.sponsorId
  prizeCategory := v.prizeCategory
  stockDate := v.stockDate
  fulfillmentMethod := v.fulfillmentMethod
  deliveryTimeline := v.deliveryTimeline
  claimWindow := v.claimWindow
  pickupRequired := v.pickupRequired
  eligibleRegions := v.eligibleRegions
  retailValueUSD := v.retailValueUSD
  breakEvenValue := jsBreakEven v.retailValueUSD
  ageRestriction := v.ageRestriction
  idRequired := v.idRequired
  useStandardTerms := v.useStandardTerms
  termsConditionsUrl := v.termsConditionsUrl
  customTermsType := v.customTermsType
  customTermsUrl := v.customTermsUrl
  additionalInfo := v.additionalInfo
  status := "Active"

/-- The user-visible outcome of one `onSubmit` run. -/
inductive SubmitOutcome where
  | imagesRequiredToast
  | created (docId : String)
  | errorToast
deriving DecidableEq, Repr

/-- `onSubmit` (lines 233-294): the schema-external image precondition
fires first and returns before any network call; otherwise the data is
assembled and `createPrizeDocument` runs, a thrown error being caught
into the failure toast (form contents are kept; the model keeps the
form values untouched throughout). -/
def onSubmit (env : Env) (values : FormValues) (imageFiles : List String)
    (st : FsState) : FsState × SubmitOutcome :=
  if imageFiles.length = 0 then (st, .imagesRequiredToast)
  else
    match createPrizeDocument env (assembleData values) imageFiles values.sponsorId st with
    | (st1, some docId) => (st1, .created docId)
    | (st1, none) => (st1, .errorToast)

/-- `form.handleSubmit(onSubmit)`: react-hook-form runs the zod schema
first and calls `onSubmit` only when it passes (`none` = validation
errors shown, no submission attempted). -/
def handleSubmit (env : Env) (values : FormValues) (imageFiles : List String)
    (st : FsState) : FsState × Option SubmitOutcome :=
  if formSchemaValid values then
    let r := onSubmit env values imageFiles st
    (r.1, some r.2)
  else (st, none)

/-- `Array.prototype.slice(0, e)` with JavaScript's negative-index
convention (a negative end counts from the end of the array). -/
def jsSliceTo (xs : List String) (e : ℤ) : List String :=
  let n : ℤ := xs.length
  let stop := if e < 0 then max (n + e) 0 else min e n
  xs.take stop.toNat

/-- `handleImageUpload` (lines 188-204), restricted to its effect on the
staged file list: a null file list is ignored; otherwise the new files
are truncated to the remaining slots (`4 - imageFiles.length`) and
appended. -/
def handleImageUpload (imageFiles : List String) (files : Option (List String)) :
    List String :=
  match files with
  | none => imageFiles
  | some fs =>
    let remaining : ℤ := 4 - imageFiles.length
    let newFiles := jsSliceTo fs remaining
    imageFiles ++ newFiles

/-- `toggleRegion` (lines 211-220): remove the region if selected, else
append it. -/
def toggleRegion (region : String) (prev : List String) : List String :=
  if region ∈ prev then prev.filter (fun r => r ≠ region) else prev ++ [region]

/-- The `eligibleRegions` form-field string written on every toggle:
`next.join(", ")`. -/
def joinRegions (l : List String) : String := String.intercalate ", " l

/-- The category-related component state: the in-memory option list, the
new-category input text, and the form's selected `prizeCategory`. -/
structure CategoryState where
  categories : List String
  newCategory : String
  prizeCategory : String
deriving DecidableEq, Repr

/-- JavaScript `String.prototype.trim`: strip leading and trailing
whitespace characters. -/
def jsTrim (s : String) : String :=
  String.mk (((s.data.dropWhile Char.isWhitespace).reverse.dropWhile
    Char.isWhitespace).reverse)

/-- `addCategory` (lines 222-230): trim the input; when non-empty and
not already listed, append it, select it, and clear the input;
otherwise do nothing. -/
def addCategory (s : CategoryState) : CategoryState :=
  let trimmed := jsTrim s.newCategory
  if trimmed ≠ "" ∧ trimmed ∉ s.categories then
    { categories := s.categories ++ [trimmed]
      newCategory := ""
      prizeCategory := trimmed }
  else s

/-- The built-in category list (lines 72-82). -/
def PRIZE_CATEGORIES : List String :=
  ["Electronics", "Gift Cards", "Experiences", "Fashion", "Home & Garden",
   "Sports & Outdoors", "Food & Beverage", "Travel", "Other"]

/-- The fixed region list (lines 87-91). -/
def REGIONS : List String :=
  ["arima", "chaguanas", "couva", "diego martin", "point fortin",
   "port of spain", "princes town", "san fernando", "san juan",
   "sangre grande", "siparia", "tobago", "tunapuna"]

/-! ### The prize list screen

`formatCurrency` delegates to
`Intl.NumberFormat("en-US", { style: "currency", currency: "USD",
minimumFractionDigits: 0 })`.  Per ECMA-402 this keeps the USD default
`maximumFractionDigits` of `2`: the value is rounded to cents
(half away from zero), rendered with a `$` sign and 3-digit grouping,
and trailing fraction zeros are stripped down to the minimum of 0. -/

/-- The decimal digit character for `n < 10`. -/
def digitChar (n : ℕ) : Char := Char.ofNat (48 + n)

/-- Decimal digits of `n`, most significant first (fuel-driven; any
`fuel > n` is enough). -/
def natToDigits (fuel n : ℕ) : List Char :=
  match fuel with
  | 0 => []
  | f + 1 =>
    if n < 10 then [digitChar n] else natToDigits f (n / 10) ++ [digitChar (n % 10)]

/-- Insert a comma after every three characters of a reversed digit
list (en-US integer grouping, seen from the right). -/
def groupRev : List Char → List Char
  | a :: b :: c :: d :: rest => a :: b :: c :: ',' :: groupRev (d :: rest)
  | l => l

/-- Grouped en-US rendering of a natural number. -/
def groupedNat (n : ℕ) : String :=
  String.mk (groupRev (natToDigits (n + 1) n).reverse).reverse

/-- The cent value Intl rounds the input to: `|v| * 100`, rounded to the
nearest integer, ties away from zero (ECMA-402 `halfExpand`). -/
def centsOf (v : ℚ) : ℕ := (⌊|v| * 100 + 1 / 2⌋).toNat

/-- The fraction part rendered for a cent remainder `rem < 100`:
nothing for `0`, one digit when the second is a trailing zero, else two
digits (trailing zeros are stripped down to `minimumFractionDigits: 0`). -/
def fracPart (rem : ℕ) : String :=
  if rem = 0 then ""
  else if rem % 10 = 0 then String.mk ['.', digitChar (rem / 10)]
  else String.mk ['.', digitChar (rem / 10), digitChar (rem % 10)]

/-- `formatCurrency` of the Prizes page (part_000 lines 13-19). -/
def formatCurrency (v : ℚ) : String :=
  (if v < 0 then "-" else "") ++ "$" ++
    groupedNat (centsOf v / 100) ++ fracPart (centsOf v % 100)

/-- `true` iff a formatted string shows no fraction digits. -/
def noFractionDigits (s : String) : Bool := decide (('.' : Char) ∉ s.data)

/-- A prize record as consumed by the list screen's columns;
`prizeValue` is the stored number. -/
structure PrizeRow where
  prizeName : String
  keyDetails : String
  prizeValue : ℚ
  sponsorName : String
  stockLevel : String
  status : String
deriving DecidableEq, Repr

/-- A rendered table row: `prizeValue` replaced by its display string. -/
structure DisplayRow where
  prizeName : String
  keyDetails : String
  prizeValue : String
  sponsorName : String
  stockLevel : String
  status : String
deriving DecidableEq, Repr

/-- Modelled from the spec: `getPrizes` lives in `@/lib/firestore`,
which is not part of the sources; per §6 it is the read
`listPrizes() -> sequence of Prize`, returning the stored collection
without modifying it. -/
def getPrizes (store : List PrizeRow) : List PrizeRow := store

/-- The per-record mapping of `fetchPrizes` (part_000 lines 43-48):
spread the record and overwrite `prizeValue` with its formatted string. -/
def displayPrize (p : PrizeRow) : DisplayRow where
  prizeName := p.prizeName
  keyDetails := p.keyDetails
  prizeValue := formatCurrency p.prizeValue
  sponsorName := p.sponsorName
  stockLevel := p.stockLevel
  status := p.status

/-- `fetchPrizes` (part_000 lines 39-54): read the collection and map it
to display rows; the store itself is only read, never written. -/
def fetchPrizes (store : List PrizeRow) : List PrizeRow × List DisplayRow :=
  (store, (getPrizes store).map displayPrize)

/-! ### Concrete sample inputs (used by witnesses and counterexamples) -/

/-- A schema-valid set of form values. -/
def sampleForm : FormValues where
  prizeName := "Bike"
  quantityAvailable := "2"
  detail1 := "A"
  detail2 := ""
  detail3 := "C"
  fullDescription := "A bike"
  tags := "bike, outdoors"
  sponsorId := "sp1"
  prizeCategory := "Other"
  stockDate := "2025-01-01"
  fulfillmentMethod := "Courier"
  deliveryTimeline := "Instant"
  claimWindow := "24 Hours"
  pickupRequired := false
  eligibleRegions := "arima"
  retailValueUSD := "1000"
  ageRestriction := "18+"
  idRequired := false
  useStandardTerms := true
  termsConditionsUrl := ""
  customTermsType := "url"
  customTermsUrl := ""
  additionalInfo := ""
  acceptedTerms := false

/-- `sampleForm` with a non-numeric retail value. -/
def badRetailForm : FormValues := { sampleForm with retailValueUSD := "abc" }

/-- A backend state holding one sponsor and no prizes. -/
def sampleState : FsState where
  prizes := []
  sponsors := [("sp1", [])]
  blobs := []
  sponsorUpdateAttempts := 0

/-- An environment where every network call succeeds. -/
def envAllOk : Env where
  uploadOutcome := fun _ => some "url"
  insertOutcome := some "p1"
  sponsorUpdateOk := true
  now := 7

/-- An environment whose document insert fails. -/
def envInsertFails : Env where
  uploadOutcome := fun _ => some "url"
  insertOutcome := none
  sponsorUpdateOk := true
  now := 7

/-- An environment whose sponsor-link update fails. -/
def envSponsorFails : Env where
  uploadOutcome := fun _ => some "url"
  insertOutcome := some "p1"
  sponsorUpdateOk := false
  now := 7

/-! ### Helper lemmas -/

/-- The upload loop touches only the blob store: prizes, sponsor arrays
and the sponsor-update counter pass through unchanged. -/
theorem uploadImages_frame (env : Env) (files : List String) :
    ∀ (i : ℕ) (st : FsState),
      (uploadImages env files i st).1.prizes = st.prizes ∧
      (uploadImages env files i st).1.sponsors = st.sponsors ∧
      (uploadImages env files i st).1.sponsorUpdateAttempts = st.sponsorUpdateAttempts := by
  induction files with
  | nil => intro i st; simp [uploadImages]
  | cons f rest ih =>
    intro i st
    simp only [uploadImages]
    cases h : env.uploadOutcome i with
    | none => simp
    | some url =>
      have hrec := ih (i + 1) { st with blobs := st.blobs ++ [url] }
      rcases h2 : uploadImages env rest (i + 1) { st with blobs := st.blobs ++ [url] } with ⟨st2, r⟩
      rw [h2] at hrec
      cases r <;> simp_all

/-- If every staged file's upload succeeds, the loop returns the URLs in
array order and appends them to the blob store. -/
theorem uploadImages_some (env : Env) (u : ℕ → String) (files : List String) :
    ∀ (i : ℕ) (st : FsState),
      (∀ j, j < files.length → env.uploadOutcome (i + j) = some (u (i + j))) →
      uploadImages env files i st =
        ({ st with blobs := st.blobs ++ (List.range files.length).map (fun j => u (i + j)) },
          some ((List.range files.length).map (fun j => u (i + j)))) := by
  induction files with
  | nil => intro i st _; simp [uploadImages]
  | cons f rest ih =>
    intro i st h
    have h0 : env.uploadOutcome i = some (u i) := by simpa using h 0 (by simp)
    have hrest : ∀ j, j < rest.length →
        env.uploadOutcome ((i + 1) + j) = some (u ((i + 1) + j)) := by
      intro j hj
      have harith : i + (j + 1) = (i + 1) + j := by omega
      have := h (j + 1) (by simpa using Nat.succ_lt_succ hj)
      rwa [harith] at this
    have hmap : (List.range (rest.length + 1)).map (fun j => u (i + j)) =
        u i :: (List.range rest.length).map (fun j => u ((i + 1) + j)) := by
      rw [List.range_succ_eq_map, List.map_cons, List.map_map]
      refine congrArg₂ _ (by simp) (List.map_congr_left fun j _ => ?_)
      show u (i + (j + 1)) = u ((i + 1) + j)
      congr 1
      omega
    simp only [uploadImages, h0]
    rw [ih (i + 1) { st with blobs := st.blobs ++ [u i] } hrest]
    simp [hmap, List.length_cons]

/-- If some upload in range fails, the loop reports failure. -/
theorem uploadImages_fail (env : Env) (files : List String) :
    ∀ (i : ℕ) (st : FsState),
      (∃ j, j < files.length ∧ env.uploadOutcome (i + j) = none) →
      (uploadImages env files i st).2 = none := by
  induction files with
  | nil =>
    intro i st h
    obtain ⟨j, hj, _⟩ := h
    simp at hj
  | cons f rest ih =>
    intro i st h
    obtain ⟨j, hj, hnone⟩ := h
    simp only [uploadImages]
    cases h0 : env.uploadOutcome i with
    | none => simp
    | some url =>
      have hj0 : j ≠ 0 := by
        rintro rfl
        rw [Nat.add_zero] at hnone
        rw [h0] at hnone
        cases hnone
      obtain ⟨j', rfl⟩ := Nat.exists_eq_succ_of_ne_zero hj0
      have harith : i + (j' + 1) = (i + 1) + j' := by omega
      rw [harith] at hnone
      have hrec := ih (i + 1) { st with blobs := st.blobs ++ [url] }
        ⟨j', by simpa using hj, hnone⟩
      rcases h2 : uploadImages env rest (i + 1) { st with blobs := st.blobs ++ [url] } with ⟨st2, r⟩
      rw [h2] at hrec
      cases r <;> simp_all

/-- A failing upload aborts `createPrizeDocument` with the prize
collection, sponsor arrays and sponsor-update counter untouched. -/
theorem createPrize_uploadFail (env : Env) (data : CreatePrizeData)
    (imageFiles : List String) (sponsorId : String) (st : FsState)
    (h : ∃ j, j < imageFiles.length ∧ env.uploadOutcome j = none) :
    (createPrizeDocument env data imageFiles sponsorId st).2 = none ∧
    (createPrizeDocument env data imageFiles sponsorId st).1.prizes = st.prizes ∧
    (createPrizeDocument env data imageFiles sponsorId st).1.sponsors = st.sponsors ∧
    (createPrizeDocument env data imageFiles sponsorId st).1.sponsorUpdateAttempts =
      st.sponsorUpdateAttempts := by
  have hfail := uploadImages_fail env imageFiles 0 st (by simpa using h)
  have hframe := uploadImages_frame env imageFiles 0 st
  rcases h2 : uploadImages env imageFiles 0 st with ⟨st1, r⟩
  rw [h2] at hfail hframe
  simp only at hfail
  subst hfail
  simp only [createPrizeDocument, h2]
  exact ⟨by trivial, hframe.1, hframe.2.1, hframe.2.2⟩

/-- When every upload succeeds and the insert succeeds, the run is fully
determined: blobs and the prize collection are extended, exactly one
sponsor-update call is issued, and the sponsor arrays change only when
that call succeeds. -/
theorem createPrize_success (env : Env) (data : CreatePrizeData)
    (imageFiles : List String) (sponsorId : String) (st : FsState)
    (u : ℕ → String) (docId : String)
    (hu : ∀ j, j < imageFiles.length → env.uploadOutcome j = some (u j))
    (hi : env.insertOutcome = some docId) :
    createPrizeDocument env data imageFiles sponsorId st =
      ({ prizes := st.prizes ++
            [(docId, buildPrizeDoc data env.now ((List.range imageFiles.length).map u))]
         sponsors := if env.sponsorUpdateOk then updateSponsor st.sponsors sponsorId docId
            else st.sponsors
         blobs := st.blobs ++ (List.range imageFiles.length).map u
         sponsorUpdateAttempts := st.sponsorUpdateAttempts + 1 },
        some docId) := by
  have hup := uploadImages_some env u imageFiles 0 st (by intro j hj; simpa using hu j hj)
  have hfun : (fun j => u (0 + j)) = u := funext fun j => by rw [Nat.zero_add]
  rw [hfun] at hup
  simp only [createPrizeDocument, hup, hi]
  by_cases hok : env.sponsorUpdateOk <;> simp [hok]

/-! ### Claims -/

/-- C1: the stages of `createPrizeDocument` run strictly in order; if an
image upload fails, or the document insert fails after all uploads
succeeded, the function throws (`none`), no prize document is inserted,
and no sponsor-link update is attempted (the sponsor arrays and the
update-call counter are untouched). -/
theorem createPrize_stage_order (env : Env) (data : CreatePrizeData)
    (imageFiles : List String) (sponsorId : String) (st : FsState)
    (h : (∃ j, j < imageFiles.length ∧ env.uploadOutcome j = none) ∨
      env.insertOutcome = none) :
    (createPrizeDocument env data imageFiles sponsorId st).2 = none ∧
    (createPrizeDocument env data imageFiles sponsorId st).1.prizes = st.prizes ∧
    (createPrizeDocument env data imageFiles sponsorId st).1.sponsors = st.sponsors ∧
    (createPrizeDocument env data imageFiles sponsorId st).1.sponsorUpdateAttempts =
      st.sponsorUpdateAttempts := by
  rcases h with hup | hins
  · exact createPrize_uploadFail env data imageFiles sponsorId st hup
  · by_cases hfail : ∃ j, j < imageFiles.length ∧ env.uploadOutcome j = none
    · exact createPrize_uploadFail env data imageFiles sponsorId st hfail
    · push_neg at hfail
      have hu : ∀ j, j < imageFiles.length →
          env.uploadOutcome j = some ((env.uploadOutcome j).getD "") := by
        intro j hj
        rcases hh : env.uploadOutcome j with _ | url
        · exact absurd hh (hfail j hj)
        · simp
      have hup := uploadImages_some env (fun j => (env.uploadOutcome j).getD "")
        imageFiles 0 st (by intro j hj; simpa using hu j hj)
      have hfun : (fun j => (env.uploadOutcome (0 + j)).getD "") =
          (fun j => (env.uploadOutcome j).getD "") := funext fun j => by rw [Nat.zero_add]
      rw [hfun] at hup
      simp only [createPrizeDocument, hup, hins]
      simp

/-- C1 witness: with two staged files, successful uploads and a failing
document insert, the run fails and leaves the prize collection,
sponsor arrays and sponsor-update counter of the initial state alone. -/
theorem createPrize_stage_order_w :
    (createPrizeDocument envInsertFails (assembleData sampleForm) ["a", "b"] "sp1"
        sampleState).2 = none ∧
    (createPrizeDocument envInsertFails (assembleData sampleForm) ["a", "b"] "sp1"
        sampleState).1.prizes = sampleState.prizes ∧
    (createPrizeDocument envInsertFails (assembleData sampleForm) ["a", "b"] "sp1"
        sampleState).1.sponsors = sampleState.sponsors ∧
    (createPrizeDocument envInsertFails (assembleData sampleForm) ["a", "b"] "sp1"
        sampleState).1.sponsorUpdateAttempts = sampleState.sponsorUpdateAttempts :=
  createPrize_stage_order envInsertFails (assembleData sampleForm) ["a", "b"] "sp1"
    sampleState (Or.inr rfl)

/-- C2: when uploads and insert succeed, `createPrizeDocument` returns
the generated id and keeps the inserted prize document even when the
sponsor-link update fails; that failure is swallowed (never surfaced to
the caller) and the sponsor arrays are simply left unchanged. -/
theorem createPrize_sponsorLink_swallowed (env : Env) (data : CreatePrizeData)
    (imageFiles : List String) (sponsorId : String) (st : FsState)
    (u : ℕ → String) (docId : String)
    (hu : ∀ j, j < imageFiles.length → env.uploadOutcome j = some (u j))
    (hi : env.insertOutcome = some docId) :
    (createPrizeDocument env data imageFiles sponsorId st).2 = some docId ∧
    (createPrizeDocument env data imageFiles sponsorId st).1.prizes =
      st.prizes ++
        [(docId, buildPrizeDoc data env.now ((List.range imageFiles.length).map u))] ∧
    (env.sponsorUpdateOk = false →
      (createPrizeDocument env data imageFiles sponsorId st).1.sponsors = st.sponsors) := by
  rw [createPrize_success env data imageFiles sponsorId st u docId hu hi]
  exact ⟨rfl, rfl, fun hok => by simp [hok]⟩

/-- C2 witness: two successful uploads, successful insert, failing
sponsor update: the id is returned, the document is persisted, the
sponsor arrays are untouched. -/
theorem createPrize_sponsorLink_swallowed_w :
    (createPrizeDocument envSponsorFails (assembleData sampleForm) ["a", "b"] "sp1"
        sampleState).2 = some "p1" ∧
    (createPrizeDocument envSponsorFails (assembleData sampleForm) ["a", "b"] "sp1"
        sampleState).1.prizes =
      sampleState.prizes ++
        [("p1", buildPrizeDoc (assembleData sampleForm) envSponsorFails.now
          ((List.range (["a", "b"] : List String).length).map fun _ => "url"))] ∧
    (envSponsorFails.sponsorUpdateOk = false →
      (createPrizeDocument envSponsorFails (assembleData sampleForm) ["a", "b"] "sp1"
        sampleState).1.sponsors = sampleState.sponsors) :=
  createPrize_sponsorLink_swallowed envSponsorFails (assembleData sampleForm) ["a", "b"]
    "sp1" sampleState (fun _ => "url") "p1" (fun _ _ => rfl) rfl

/-- C3: a fully successful run persists a document whose `images` are
the uploaded URLs in upload order (length `n` for `1 ≤ n ≤ 4` staged
files), whose `thumbnail` is `images[0]` (and `""` with no images),
and whose `status` is the status passed in — fixed to `"Active"` by the
submit handler; the sponsor's linkage array then contains the new id. -/
theorem createPrize_document_shape (env : Env) (data : CreatePrizeData)
    (imageFiles : List String) (sponsorId : String) (st : FsState)
    (u : ℕ → String) (docId : String)
    (h1 : 1 ≤ imageFiles.length) (h4 : imageFiles.length ≤ 4)
    (hu : ∀ j, j < imageFiles.length → env.uploadOutcome j = some (u j))
    (hi : env.insertOutcome = some docId)
    (hok : env.sponsorUpdateOk = true)
    (hsp : sponsorId ∈ st.sponsors.map Prod.fst) :
    (createPrizeDocument env data imageFiles sponsorId st).2 = some docId ∧
    (createPrizeDocument env data imageFiles sponsorId st).1.prizes =
      st.prizes ++
        [(docId, buildPrizeDoc data env.now ((List.range imageFiles.length).map u))] ∧
    (buildPrizeDoc data env.now ((List.range imageFiles.length).map u)).images =
      (List.range imageFiles.length).map u ∧
    (buildPrizeDoc data env.now ((List.range imageFiles.length).map u)).images.length =
      imageFiles.length ∧
    (buildPrizeDoc data env.now ((List.range imageFiles.length).map u)).thumbnail = u 0 ∧
    (buildPrizeDoc data env.now ((List.range imageFiles.length).map u)).status =
      data.status ∧
    (∃ pr, pr ∈ (createPrizeDocument env data imageFiles sponsorId st).1.sponsors ∧
      pr.1 = sponsorId ∧ docId ∈ pr.2) ∧
    (buildPrizeDoc data env.now []).thumbnail = "" ∧
    (∀ v : FormValues, (assembleData v).status = "Active") := by
  rw [createPrize_success env data imageFiles sponsorId st u docId hu hi]
  refine ⟨rfl, rfl, rfl, by simp [buildPrizeDoc], ?_, rfl, ?_, rfl, fun v => rfl⟩
  · obtain ⟨m, hm⟩ : ∃ m, imageFiles.length = m + 1 := ⟨imageFiles.length - 1, by omega⟩
    rw [hm]
    simp [buildPrizeDoc, List.range_succ_eq_map]
  · simp only [hok, if_true]
    obtain ⟨pr, hpr, hfst⟩ := List.mem_map.mp hsp
    refine ⟨(pr.1, arrayUnionAppend pr.2 docId),
      List.mem_map.mpr ⟨pr, hpr, by simp [hfst]⟩, hfst, ?_⟩
    by_cases hin : docId ∈ pr.2 <;> simp [arrayUnionAppend, hin]

/-- C3 witness: two staged files, all calls succeeding, against a state
holding the sponsor `"sp1"`. -/
theorem createPrize_document_shape_w :
    (createPrizeDocument envAllOk (assembleData sampleForm) ["a", "b"] "sp1"
        sampleState).2 = some "p1" ∧
    (createPrizeDocument envAllOk (assembleData sampleForm) ["a", "b"] "sp1"
        sampleState).1.prizes =
      sampleState.prizes ++
        [("p1", buildPrizeDoc (assembleData sampleForm) envAllOk.now
          ((List.range (["a", "b"] : List String).length).map fun _ => "url"))] ∧
    (buildPrizeDoc (assembleData sampleForm) envAllOk.now
      ((List.range (["a", "b"] : List String).length).map fun _ => "url")).images =
      (List.range (["a", "b"] : List String).length).map (fun _ => "url") ∧
    (buildPrizeDoc (assembleData sampleForm) envAllOk.now
      ((List.range (["a", "b"] : List String).length).map fun _ => "url")).images.length =
      (["a", "b"] : List String).length ∧
    (buildPrizeDoc (assembleData sampleForm) envAllOk.now
      ((List.range (["a", "b"] : List String).length).map fun _ => "url")).thumbnail =
      "url" ∧
    (buildPrizeDoc (assembleData sampleForm) envAllOk.now
      ((List.range (["a", "b"] : List String).length).map fun _ => "url")).status =
      (assembleData sampleForm).status ∧
    (∃ pr, pr ∈ (createPrizeDocument envAllOk (assembleData sampleForm) ["a", "b"] "sp1"
        sampleState).1.sponsors ∧ pr.1 = "sp1" ∧ "p1" ∈ pr.2) ∧
    (buildPrizeDoc (assembleData sampleForm) envAllOk.now []).thumbnail = "" ∧
    (∀ v : FormValues, (assembleData v).status = "Active") :=
  createPrize_document_shape envAllOk (assembleData sampleForm) ["a", "b"] "sp1"
    sampleState (fun _ => "url") "p1" (by decide) (by decide) (fun _ _ => rfl) rfl rfl
    (by decide)

/-- C5: with zero staged images, schema-valid submission always returns
the distinct image-precondition toast and leaves the backend state
completely unchanged (no upload, insert or sponsor call); and the check
fires only after schema validation — an invalid form never reaches it. -/
theorem submit_zero_images (env : Env) (v : FormValues) (imgs : List String)
    (st : FsState) :
    (formSchemaValid v = true →
      handleSubmit env v [] st = (st, some SubmitOutcome.imagesRequiredToast)) ∧
    (formSchemaValid v = false → handleSubmit env v imgs st = (st, none)) := by
  constructor
  · intro h
    simp [handleSubmit, h, onSubmit]
  · intro h
    simp [handleSubmit, h]

/-- C5 witness: the schema-valid sample form with no staged images. -/
theorem submit_zero_images_w :
    handleSubmit envAllOk sampleForm [] sampleState =
      (sampleState, some SubmitOutcome.imagesRequiredToast) :=
  (submit_zero_images envAllOk sampleForm [] sampleState).1 (by decide)

/-- C7: staging files appends the first `4 - k` new files in input order
and silently drops the excess; the staged count is `min (k + m) 4` and
never exceeds 4; attaching to an empty list keeps the first 4; a null
file list is ignored. -/
theorem imageUpload_truncates (staged batch : List String)
    (h : staged.length ≤ 4) :
    handleImageUpload staged (some batch) =
      staged ++ batch.take (4 - staged.length) ∧
    (handleImageUpload staged (some batch)).length =
      min (staged.length + batch.length) 4 ∧
    (handleImageUpload staged (some batch)).length ≤ 4 ∧
    (staged = [] → handleImageUpload staged (some batch) = batch.take 4) ∧
    handleImageUpload staged none = staged := by
  have hslice : jsSliceTo batch ((4 : ℤ) - staged.length) =
      batch.take (4 - staged.length) := by
    simp only [jsSliceTo]
    rw [if_neg (show ¬((4 : ℤ) - (staged.length : ℤ) < 0) by omega)]
    rcases le_or_lt ((4 : ℤ) - staged.length) batch.length with hle | hlt
    · rw [min_eq_left hle,
        show ((4 : ℤ) - (staged.length : ℤ)).toNat = 4 - staged.length by omega]
    · rw [min_eq_right hlt.le,
        show ((batch.length : ℤ)).toNat = batch.length by omega, List.take_length]
      exact (List.take_of_length_le (by omega)).symm
  have hmain : handleImageUpload staged (some batch) =
      staged ++ batch.take (4 - staged.length) := by
    simp only [handleImageUpload]
    rw [hslice]
  refine ⟨hmain, ?_, ?_, ?_, rfl⟩
  · rw [hmain, List.length_append, List.length_take]
    omega
  · rw [hmain, List.length_append, List.length_take]
    omega
  · rintro rfl
    simpa using hmain

/-- C7 witness: six files attached to an empty staging list keep
exactly the first four, in order. -/
theorem imageUpload_truncates_w :
    handleImageUpload [] (some ["f1", "f2", "f3", "f4", "f5", "f6"]) =
      (["f1", "f2", "f3", "f4", "f5", "f6"] : List String).take 4 :=
  (imageUpload_truncates [] ["f1", "f2", "f3", "f4", "f5", "f6"] (by decide)).2.2.2.1 rfl

/-- C10: when the trimmed input is non-empty and not yet listed,
`addCategory` appends it, overwrites the selected `prizeCategory` with
it and clears the input; on empty or duplicate input the whole category
state (list, selection, input text) is unchanged. -/
theorem addCategory_spec (s : CategoryState) :
    (jsTrim s.newCategory ≠ "" → jsTrim s.newCategory ∉ s.categories →
      addCategory s =
        { categories := s.categories ++ [jsTrim s.newCategory]
          newCategory := ""
          prizeCategory := jsTrim s.newCategory }) ∧
    (jsTrim s.newCategory = "" ∨ jsTrim s.newCategory ∈ s.categories →
      addCategory s = s) := by
  constructor
  · intro h1 h2
    simp only [addCategory]
    rw [if_pos ⟨h1, h2⟩]
  · intro h
    have hn : ¬(jsTrim s.newCategory ≠ "" ∧ jsTrim s.newCategory ∉ s.categories) := by
      tauto
    simp only [addCategory]
    rw [if_neg hn]

/-- C10 witness: adding a whitespace-padded new name appends its trimmed
form and selects it; re-adding an existing name changes nothing. -/
theorem addCategory_spec_w :
    addCategory ⟨["Electronics"], "  Toys  ", "Electronics"⟩ =
      ⟨["Electronics", "Toys"], "", "Toys"⟩ ∧
    addCategory ⟨["Electronics", "Toys"], " Toys ", "Toys"⟩ =
      ⟨["Electronics", "Toys"], " Toys ", "Toys"⟩ :=
  ⟨((addCategory_spec ⟨["Electronics"], "  Toys  ", "Electronics"⟩).1 (by decide)
      (by decide)).trans (by decide),
    (addCategory_spec ⟨["Electronics", "Toys"], " Toys ", "Toys"⟩).2
      (Or.inr (by decide))⟩

/-- C6 counterexample: toggling `"arima"` twice on the selection
`["arima", "couva"]` yields the string `"couva, arima"`, not the
original `"arima, couva"` — a region that is selected but not last
moves to the end, so the claimed round-trip of the `eligibleRegions`
string fails. -/
theorem toggleRegion_double_ce :
    joinRegions (toggleRegion "arima" (toggleRegion "arima" ["arima", "couva"])) =
      "couva, arima" ∧
    joinRegions ["arima", "couva"] = "arima, couva" ∧
    joinRegions (toggleRegion "arima" (toggleRegion "arima" ["arima", "couva"])) ≠
      joinRegions ["arima", "couva"] := by decide

/-- C6 (amended): toggling a region twice restores the selection (and
hence the `eligibleRegions` string) when the region was not selected;
when it was selected, the double toggle keeps the other entries in
order but moves the region to the end; a single toggle always preserves
the relative order of the remaining entries. -/
theorem toggleRegion_spec (l : List String) (r : String) :
    (r ∉ l → toggleRegion r (toggleRegion r l) = l) ∧
    (r ∈ l → toggleRegion r (toggleRegion r l) =
      l.filter (fun x => x ≠ r) ++ [r]) ∧
    (toggleRegion r l).filter (fun x => x ≠ r) = l.filter (fun x => x ≠ r) ∧
    (r ∉ l → joinRegions (toggleRegion r (toggleRegion r l)) = joinRegions l) := by
  have hfilter_self : ∀ m : List String, r ∉ m → m.filter (fun x => x ≠ r) = m := by
    intro m hm
    rw [List.filter_eq_self]
    intro a ha
    simp only [decide_eq_true_eq]
    rintro rfl
    exact hm ha
  have h1 : r ∉ l → toggleRegion r (toggleRegion r l) = l := by
    intro h
    simp only [toggleRegion]
    rw [if_neg h, if_pos (by simp : r ∈ l ++ [r]), List.filter_append]
    have hsingle : ([r] : List String).filter (fun x => x ≠ r) = [] := by simp
    rw [hsingle, List.append_nil, hfilter_self l h]
  have h2 : r ∈ l → toggleRegion r (toggleRegion r l) =
      l.filter (fun x => x ≠ r) ++ [r] := by
    intro h
    simp only [toggleRegion]
    rw [if_pos h, if_neg (by simp : ¬r ∈ l.filter (fun x => x ≠ r))]
  have h3 : (toggleRegion r l).filter (fun x => x ≠ r) =
      l.filter (fun x => x ≠ r) := by
    by_cases h : r ∈ l
    · simp only [toggleRegion]
      rw [if_pos h, List.filter_filter]
      simp
    · simp only [toggleRegion]
      rw [if_neg h, List.filter_append]
      simp
  exact ⟨h1, h2, h3, fun h => by rw [h1 h]⟩

/-- C6 witness: toggling a region that is not selected twice restores
the selection. -/
theorem toggleRegion_spec_w :
    toggleRegion "arima" (toggleRegion "arima" ["couva"]) = ["couva"] :=
  (toggleRegion_spec ["couva"] "arima").1 (by decide)

/-- C4 counterexample: at `v = "0.58"` the code's binary64 computation
yields `0.14` (the float nearest `14/100`), while half-up rounding of
`v × 0.25 = 0.145` to 2 decimals gives `0.15`; the computed value is
neither `15/100` nor the float nearest it. -/
theorem breakEven_halfUp_ce :
    parseDecimalPair "0.58" = some (58, 100) ∧
    roundHalfUpPair (58 * 25) 100 = 15 ∧
    jsBreakEvenPair "0.58" = some (rtdPair 14 100) ∧
    pairIsRat (jsBreakEvenPair "0.58") 15 100 = false ∧
    pairEq (rtdPair 14 100) (rtdPair 15 100) = false ∧
    jsBreakEven "0.58" ≠ some ((15 : ℚ) / 100) := by
  refine ⟨by decide, by decide, by decide, by decide, by decide, ?_⟩
  intro hcontra
  have h : jsBreakEvenPair "0.58" = some (5044031582654956, 36028797018963968) := by
    decide
  rw [jsBreakEven, h] at hcontra
  simp only [Option.map_some', toQ, Option.some_inj] at hcontra
  norm_num at hcontra

/-- C4 (amended): the persisted `breakEvenValue` is
`Math.round(parseFloat(v) * 0.25 * 100) / 100` in binary64 arithmetic
(half-up on the float approximation, which the counterexample shows can
differ by one cent from exact half-up); the cited examples hold
(`"1000" ↦ 250.00`, `"19.99" ↦ 5.00`), the submitted value is recomputed
from the current retail string by this rule, and the preview value for a
non-empty retail string is computed by the identical expression, so
preview and persisted value always agree. -/
theorem breakEven_rule :
    jsBreakEven "1000" = some 250 ∧
    jsBreakEven "19.99" = some 5 ∧
    (∀ v : FormValues, (assembleData v).breakEvenValue =
      jsBreakEven v.retailValueUSD) ∧
    (∀ s : String, s ≠ "" → breakEvenPreview s = jsBreakEven s) := by
  refine ⟨?_, ?_, fun v => rfl, fun s hs => ?_⟩
  · have h : jsBreakEvenPair "1000" = some (8796093022208000, 35184372088832) := by
      decide
    rw [jsBreakEven, h]
    simp only [Option.map_some', toQ, Option.some_inj]
    norm_num
  · have h : jsBreakEvenPair "19.99" = some (5629499534213120, 1125899906842624) := by
      decide
    rw [jsBreakEven, h]
    simp only [Option.map_some', toQ, Option.some_inj]
    norm_num
  · simp only [breakEvenPreview]
    rw [if_neg hs]

/-- C4 witness: the preview and the persisted value agree at `"19.99"`. -/
theorem breakEven_rule_w : breakEvenPreview "19.99" = jsBreakEven "19.99" :=
  breakEven_rule.2.2.2 "19.99" (by decide)

/-- C8 counterexample: `"abc"` is not a non-negative decimal, yet a form
carrying it as `retailValueUSD` passes the schema (which only requires
non-emptiness); the persisted `breakEvenValue` is then `NaN`. -/
theorem schema_retail_ce :
    formSchemaValid badRetailForm = true ∧
    parsesAsNonNegDecimal badRetailForm.retailValueUSD = false ∧
    (assembleData badRetailForm).breakEvenValue = none := by
  refine ⟨by decide, by decide, by decide⟩

/-- C8 (amended): the schema enforces only that `retailValueUSD` is a
non-empty string; its decimal format is constrained by the UI alone, so
a schema-accepted form need not carry a parseable non-negative decimal. -/
theorem schema_retail_minimal (v : FormValues) (h : formSchemaValid v = true) :
    1 ≤ v.retailValueUSD.length := by
  simp only [formSchemaValid, Bool.and_eq_true, decide_eq_true_eq] at h
  tauto

/-- C8 witness: the sample form is schema-valid, hence its retail value
is non-empty. -/
theorem schema_retail_minimal_w : 1 ≤ sampleForm.retailValueUSD.length :=
  schema_retail_minimal sampleForm (by decide)

/-- Digit characters are never the decimal point. -/
theorem digitChar_ne_dot : ∀ k < 10, digitChar k ≠ '.' := by decide

/-- The rendered digits of a natural number contain no decimal point. -/
theorem dot_not_mem_natToDigits (f : ℕ) : ∀ n, ('.' : Char) ∉ natToDigits f n := by
  induction f with
  | zero => intro n; simp [natToDigits]
  | succ f ih =>
    intro n
    simp only [natToDigits]
    split
    · next h =>
      simp only [List.mem_singleton]
      exact fun hc => digitChar_ne_dot n h hc.symm
    · next h =>
      simp only [List.mem_append, List.mem_singleton]
      rintro (hm | hm)
      · exact ih (n / 10) hm
      · exact digitChar_ne_dot (n % 10) (Nat.mod_lt n (by norm_num)) hm.symm

/-- Grouping inserts only commas: it never introduces a decimal point. -/
theorem dot_not_mem_groupRev :
    ∀ l : List Char, ('.' : Char) ∉ l → ('.' : Char) ∉ groupRev l
  | [], h => by rw [show groupRev [] = [] from rfl]; exact h
  | [a], h => by rw [show groupRev [a] = [a] from rfl]; exact h
  | [a, b], h => by rw [show groupRev [a, b] = [a, b] from rfl]; exact h
  | [a, b, c], h => by rw [show groupRev [a, b, c] = [a, b, c] from rfl]; exact h
  | a :: b :: c :: d :: rest, h => by
    have hd : ('.' : Char) ∉ d :: rest := by
      intro hm
      apply h
      simp only [List.mem_cons] at hm ⊢
      tauto
    have ih := dot_not_mem_groupRev (d :: rest) hd
    intro hm
    rw [show groupRev (a :: b :: c :: d :: rest) =
      a :: b :: c :: ',' :: groupRev (d :: rest) from rfl] at hm
    simp only [List.mem_cons] at hm h
    rcases hm with h1 | h1 | h1 | h1 | h1
    · exact h (Or.inl h1)
    · exact h (Or.inr (Or.inl h1))
    · exact h (Or.inr (Or.inr (Or.inl h1)))
    · exact absurd h1 (by decide)
    · exact ih h1

/-- A whole-dollar value rounds to exactly its cents. -/
theorem centsOf_natCast (n : ℕ) : centsOf (n : ℚ) = 100 * n := by
  have h3 : ⌊(1 / 2 : ℚ)⌋ = 0 := by
    rw [Int.floor_eq_iff]
    norm_num
  have h1 : ⌊|(n : ℚ)| * 100 + 1 / 2⌋ = (100 * n : ℤ) := by
    rw [abs_of_nonneg (by positivity : (0 : ℚ) ≤ (n : ℚ))]
    have h2 : (n : ℚ) * 100 + 1 / 2 = ((100 * n : ℤ) : ℚ) + 1 / 2 := by
      push_cast
      ring
    rw [h2, Int.floor_int_add, h3]
    omega
  unfold centsOf
  rw [h1]
  omega

/-- C9 counterexample: the stored number closest to `19.99` (the exact
binary64 value, witnessed by the third conjunct) is displayed as
`"$19.99"`, which does carry fraction digits — `minimumFractionDigits: 0`
only stops fraction digits from being forced, it does not cap them. -/
theorem currency_fraction_ce :
    (displayPrize
      { prizeName := "Watch", keyDetails := "steel",
        prizeValue := (5626684784446013 : ℚ) / 281474976710656,
        sponsorName := "Acme", stockLevel := "3", status := "Active" }).prizeValue =
      "$19.99" ∧
    noFractionDigits "$19.99" = false ∧
    pairEq (rtdPair 1999 100) (5626684784446013, 281474976710656) = true := by
  refine ⟨?_, by decide, by decide⟩
  show formatCurrency ((5626684784446013 : ℚ) / 281474976710656) = "$19.99"
  have hf : ⌊(5626684784446013 : ℚ) / 281474976710656 * 100 + 1 / 2⌋ = (1999 : ℤ) := by
    rw [Int.floor_eq_iff]
    norm_num
  have hc : centsOf ((5626684784446013 : ℚ) / 281474976710656) = 1999 := by
    unfold centsOf
    rw [abs_of_nonneg (by positivity), hf]
    rfl
  unfold formatCurrency
  rw [if_neg (not_lt.mpr (by positivity)), hc]
  decide

/-- C9 (amended): the list screen's fetch maps every record to a display
row whose `prizeValue` is the localized USD rendering of the stored
number, leaving the store itself unchanged; whole-dollar values are
displayed with no fraction digits (non-integral values keep up to two,
as the counterexample shows). -/
theorem currency_display (store : List PrizeRow) (p : PrizeRow) (n : ℕ) :
    (fetchPrizes store).1 = store ∧
    (fetchPrizes store).2 = store.map displayPrize ∧
    (displayPrize p).prizeValue = formatCurrency p.prizeValue ∧
    noFractionDigits (formatCurrency (n : ℚ)) = true := by
  refine ⟨rfl, rfl, rfl, ?_⟩
  unfold formatCurrency
  rw [if_neg (not_lt.mpr (by positivity : (0 : ℚ) ≤ (n : ℚ))), centsOf_natCast,
    show 100 * n / 100 = n by omega, show 100 * n % 100 = 0 by omega,
    show fracPart 0 = "" from rfl]
  unfold noFractionDigits
  rw [decide_eq_true_eq]
  have hgn : ('.' : Char) ∉ (groupedNat n).data := by
    show ('.' : Char) ∉ (groupRev (natToDigits (n + 1) n).reverse).reverse
    rw [List.mem_reverse]
    refine dot_not_mem_groupRev _ ?_
    rw [List.mem_reverse]
    exact dot_not_mem_natToDigits (n + 1) n
  have e0 : ("" ++ "$" ++ groupedNat n ++ "").data = ['$'] ++ (groupedNat n).data := by
    rw [String.data_append, String.data_append, String.data_append]
    show ([] ++ ['$'] ++ (groupedNat n).data ++ []) = _
    simp
  rw [e0]
  simp only [List.mem_append, List.mem_singleton]
  rintro (h1 | h1)
  · exact absurd h1 (by decide)
  · exact hgn h1

end RaffleFox
